import Mathlib

/-!
Shallow embedding of the fault-tolerant recommendation service
(recommendation-service source file): the `CircuitBreaker` class, the
`/recommendations/:userId` orchestrator handler, and the `getMetrics`
snapshot. Stateful JS methods become pure functions returning the updated
breaker; `Date.now()` becomes an explicit `now : Nat` argument; the
`Promise.race` of the wrapped call against the timeout timer becomes a
comparison of the call duration with the configured timeout.
-/

namespace RecService

/-- States of a circuit breaker (the `this.state` string in the source). -/
inductive BState
  | CLOSED
  | OPEN
  | HALF_OPEN
deriving DecidableEq, Repr

/-- User preference payload returned by the user-profile mock. -/
structure UserPrefs where
  userId : String
  preferences : List String
deriving DecidableEq, Repr

/-- Movie record as returned by the content and trending mocks. -/
structure Movie where
  movieId : Nat
  title : String
  genre : Option String
deriving DecidableEq, Repr

/-- Possible payloads of `mockServiceCall`, indexed by the `dataType` branch. -/
inductive Payload
  | user (u : UserPrefs)
  | movies (l : List Movie)
  | trending (l : List Movie)
deriving DecidableEq, Repr

/-- The `CircuitBreaker` instance fields, as initialised by the JS constructor.
`requestHistory` stores the `success` boolean of each recorded outcome
(`true` = success), oldest first, matching `push`/`shift` on the JS array. -/
structure CircuitBreaker where
  name : String
  state : BState
  failureCount : Nat
  successCount : Nat
  lastFailureTime : Option Nat
  timeout : Nat
  failureThreshold : Nat
  failureRateThreshold : Nat
  failureRateWindow : Nat
  openDuration : Nat
  halfOpenTrials : Nat
  trialCount : Nat
  requestHistory : List Bool
deriving DecidableEq, Repr

/-- Append an outcome to the history, evicting the oldest entry when the
length exceeds the window (`push` then conditional `shift` in the source). -/
def pushHistory (h : List Bool) (window : Nat) (outcome : Bool) : List Bool :=
  if window < (h ++ [outcome]).length then (h ++ [outcome]).tail else h ++ [outcome]

/-- Failure percentage of the history, or 0 when it is empty: the
`requestHistory.filter(r => !r.success).length / requestHistory.length * 100`
expression of the source, over exact rationals (the reachable values have
denominator at most the window size, where double arithmetic is exact enough
for the integer-threshold comparisons below). -/
def failureRatePct (h : List Bool) : ℚ :=
  if 0 < h.length then
    ((h.countP (fun r => !r) : ℚ) / (h.length : ℚ)) * 100
  else 0

/-- The `failureRate >= failureRateThreshold` comparison of the source, in
cross-multiplied integer form so that it evaluates in the kernel; the lemma
`rateGE_iff` below proves it equal to the comparison of `failureRatePct`
against the threshold. -/
def rateGE (h : List Bool) (thr : Nat) : Bool :=
  if 0 < h.length then
    decide (thr * h.length ≤ 100 * h.countP (fun r => !r))
  else
    decide (thr = 0)

/-- The `onSuccess` method: record the outcome, then branch on the state. -/
def CircuitBreaker.onSuccess (b : CircuitBreaker) : CircuitBreaker :=
  let b1 := { b with
    successCount := b.successCount + 1,
    requestHistory := pushHistory b.requestHistory b.failureRateWindow true }
  match b1.state with
  | .HALF_OPEN =>
      let tc := b1.trialCount + 1
      if b1.halfOpenTrials ≤ tc then
        { b1 with state := .CLOSED, failureCount := 0, trialCount := tc }
      else
        { b1 with trialCount := tc }
  | .CLOSED => { b1 with failureCount := 0 }
  | .OPEN => b1

/-- The `onFailure` method: record the outcome and the failure time, then
branch on the state; while `CLOSED` the two trip conditions are checked in
order (consecutive-failure threshold, then failure rate over a full window). -/
def CircuitBreaker.onFailure (b : CircuitBreaker) (now : Nat) : CircuitBreaker :=
  let b1 := { b with
    failureCount := b.failureCount + 1,
    lastFailureTime := some now,
    requestHistory := pushHistory b.requestHistory b.failureRateWindow false }
  match b1.state with
  | .HALF_OPEN => { b1 with state := .OPEN, trialCount := 0 }
  | .CLOSED =>
      if b1.failureThreshold ≤ b1.failureCount then
        { b1 with state := .OPEN }
      else if rateGE b1.requestHistory b1.failureRateThreshold = true ∧
              b1.failureRateWindow ≤ b1.requestHistory.length then
        { b1 with state := .OPEN }
      else b1
  | .OPEN => b1

/-- Errors an `execute` call can fail with. -/
inductive BreakerError
  | circuitOpen (name : String)
  | timeoutErr
  | downstream (msg : String)
deriving DecidableEq, Repr

deriving instance DecidableEq for Except

/-- A wrapped call, abstracted as the time it takes to settle and the result
it settles with. The timeout race in `execute` compares `duration` against
the breaker timeout. -/
structure ServiceCall where
  duration : Nat
  result : Except String Payload
deriving DecidableEq, Repr

/-- Result of one `execute`: the updated breaker, whether the wrapped call
was actually invoked, and the outcome the caller observes. -/
structure ExecOutput where
  breaker : CircuitBreaker
  callInvoked : Bool
  outcome : Except BreakerError Payload
deriving DecidableEq, Repr

/-- The body of `execute` after the open-circuit gate: race the call against
the timeout timer, then run `onSuccess` or `onFailure`. The timer wins the
race exactly when the call duration exceeds the timeout. -/
def runCall (b : CircuitBreaker) (now : Nat) (c : ServiceCall) : ExecOutput :=
  if b.timeout < c.duration then
    ⟨b.onFailure now, true, .error .timeoutErr⟩
  else
    match c.result with
    | .ok v => ⟨b.onSuccess, true, .ok v⟩
    | .error m => ⟨b.onFailure now, true, .error (.downstream m)⟩

/-- The `execute` method: while `OPEN`, either transition to `HALF_OPEN`
(cooldown elapsed) and attempt the call, or fail fast without invoking it.
`Date.now() - this.lastFailureTime` with a null `lastFailureTime` coerces
null to 0 in JS, hence `getD 0`. -/
def CircuitBreaker.execute (b : CircuitBreaker) (now : Nat) (c : ServiceCall) : ExecOutput :=
  match b.state with
  | .OPEN =>
      if b.openDuration < now - b.lastFailureTime.getD 0 then
        runCall { b with state := .HALF_OPEN, trialCount := 0 } now c
      else
        ⟨b, false, .error (.circuitOpen b.name)⟩
  | _ => runCall b now c

/-- Fold a sequence of `execute` calls (each with its own clock reading and
wrapped call) over a breaker, keeping only the breaker state. -/
def CircuitBreaker.executeSeq (b : CircuitBreaker) : List (Nat × ServiceCall) → CircuitBreaker
  | [] => b
  | (now, c) :: rest => ((b.execute now c).breaker).executeSeq rest

/-- Constructor options; `none` models an absent key. -/
structure BreakerOptions where
  timeout : Option Nat := none
  failureThreshold : Option Nat := none
  failureRateThreshold : Option Nat := none
  failureRateWindow : Option Nat := none
  openDuration : Option Nat := none
  halfOpenTrials : Option Nat := none
deriving DecidableEq, Repr

/-- JS `options.x || d`: an absent or zero (falsy) option falls back to `d`. -/
def orDefault (v : Option Nat) (d : Nat) : Nat :=
  match v with
  | none => d
  | some n => if n = 0 then d else n

/-- The `CircuitBreaker` constructor. -/
def CircuitBreaker.make (name : String) (o : BreakerOptions) : CircuitBreaker where
  name := name
  state := .CLOSED
  failureCount := 0
  successCount := 0
  lastFailureTime := none
  timeout := orDefault o.timeout 2000
  failureThreshold := orDefault o.failureThreshold 5
  failureRateThreshold := orDefault o.failureRateThreshold 50
  failureRateWindow := orDefault o.failureRateWindow 10
  openDuration := orDefault o.openDuration 30000
  halfOpenTrials := orDefault o.halfOpenTrials 3
  trialCount := 0
  requestHistory := []

/-- Options passed to both breakers in the source. -/
def repoOptions : BreakerOptions where
  timeout := some 2000
  failureThreshold := some 5
  failureRateThreshold := some 50
  failureRateWindow := some 10
  openDuration := some 30000
  halfOpenTrials := some 3

/-- The `breakers.userProfile` instance. -/
def userProfileBreaker : CircuitBreaker := CircuitBreaker.make "userProfile" repoOptions

/-- The `breakers.content` instance. -/
def contentBreaker : CircuitBreaker := CircuitBreaker.make "content" repoOptions

/-- Injected behaviour of a downstream service (`serviceStates`). -/
inductive Behavior
  | normal
  | slow
  | fail
deriving DecidableEq, Repr

/-- The `dataType` argument of `mockServiceCall`. -/
inductive DataKind
  | user
  | movies
  | trending
deriving DecidableEq, Repr

/-- Data the user mock returns. -/
def mockUserData : UserPrefs := ⟨"123", ["Action", "Sci-Fi"]⟩

/-- Data the movies mock returns. -/
def mockMovies : List Movie :=
  [⟨101, "Inception", some "Sci-Fi"⟩, ⟨102, "The Dark Knight", some "Action"⟩]

/-- Data the trending mock returns. -/
def mockTrendingList : List Movie := [⟨99, "Trending Movie 1", none⟩]

/-- Result of `mockServiceCall`: `fail` throws, otherwise fixed data by kind. -/
def mockServiceCall (behavior : Behavior) (kind : DataKind) : Except String Payload :=
  match behavior, kind with
  | .fail, _ => .error "Service Error - 500"
  | _, .user => .ok (.user mockUserData)
  | _, .movies => .ok (.movies mockMovies)
  | _, .trending => .ok (.trending mockTrendingList)

/-- Settle time of `mockServiceCall`: the `slow` branch sleeps 3000 ms before
returning; the other branches settle immediately. -/
def callDelay (behavior : Behavior) : Nat :=
  match behavior with
  | .slow => 3000
  | _ => 0

/-- A `mockServiceCall` packaged as the wrapped call `execute` races. -/
def serviceCall (behavior : Behavior) (kind : DataKind) : ServiceCall :=
  ⟨callDelay behavior, mockServiceCall behavior kind⟩

/-- JSON body returned by `/recommendations/:userId`, with one optional field
per key any branch can emit, plus the HTTP status. -/
structure RecResponse where
  status : Nat
  message : Option String
  userPreferences : Option UserPrefs
  recommendations : Option (List Movie)
  trending : Option (List Movie)
  fallback_triggered_for : Option String
  errorMsg : Option String
deriving DecidableEq, Repr

/-- The two breaker instances owned by the service. -/
structure Breakers where
  userProfile : CircuitBreaker
  content : CircuitBreaker
deriving DecidableEq, Repr

/-- The injected behaviours of the two protected dependencies. -/
structure ServiceStates where
  userProfile : Behavior
  content : Behavior
deriving DecidableEq, Repr

/-- Value held by the `userPreferences` variable after the profile call and
its catch block: the call result on success, the fixed default preference
set on any failure. The catch-all payload arm mirrors the dynamic typing of
the source (the user call only ever yields a `user` payload). -/
def obtainedPrefs (r : ExecOutput) (userId : String) : UserPrefs :=
  match r.outcome with
  | .ok (.user u) => u
  | _ => ⟨userId, ["Comedy", "Family"]⟩

/-- Value held by the `recommendations` variable after the catalog call and
its catch block: the call result on success, the empty fallback otherwise. -/
def obtainedRecs (r : ExecOutput) : List Movie :=
  match r.outcome with
  | .ok (.movies l) => l
  | _ => []

/-- The `/recommendations/:userId` handler. Each protected call is attempted
through its breaker; on any failure the fallback value is substituted. The
composition branch is then chosen from the two breaker states. The trending
fetch is unprotected and called with behaviour hard-coded to `normal`; were
it to fail, the outer catch would answer 500 (that branch is unreachable
because the `normal` mock never fails). -/
def getRecommendations (bs : Breakers) (ss : ServiceStates) (userId : String) (now : Nat) :
    Breakers × RecResponse :=
  let r1 := bs.userProfile.execute now (serviceCall ss.userProfile .user)
  let userPreferences : UserPrefs := obtainedPrefs r1 userId
  let r2 := bs.content.execute now (serviceCall ss.content .movies)
  let recommendations : List Movie := obtainedRecs r2
  let bs1 : Breakers := ⟨r1.breaker, r2.breaker⟩
  if r1.breaker.state = .OPEN ∧ r2.breaker.state = .OPEN then
    match mockServiceCall .normal .trending with
    | .ok (.trending t) =>
        (bs1, ⟨200,
          some "Our recommendation service is temporarily degraded. Here are some trending movies.",
          none, none, some t, some "user-profile-service, content-service", none⟩)
    | .ok _ => (bs1, ⟨500, none, none, none, none, none, some "unexpected payload"⟩)
    | .error e => (bs1, ⟨500, none, none, none, none, none, some e⟩)
  else if r1.breaker.state = .OPEN then
    (bs1, ⟨200, none, some ⟨userId, ["Comedy", "Family"]⟩, some recommendations, none,
      some "user-profile-service", none⟩)
  else if r2.breaker.state = .OPEN then
    match mockServiceCall .normal .trending with
    | .ok (.trending t) =>
        (bs1, ⟨200, some "Using trending movies as fallback", some userPreferences, none,
          some t, some "content-service", none⟩)
    | .ok _ => (bs1, ⟨500, none, none, none, none, none, some "unexpected payload"⟩)
    | .error e => (bs1, ⟨500, none, none, none, none, none, some e⟩)
  else
    (bs1, ⟨200, none, some userPreferences, some recommendations, none, none, none⟩)

/-- Fields of the per-breaker `getMetrics` snapshot. -/
structure Metrics where
  state : BState
  failureRate : String
  successfulCalls : Nat
  failedCalls : Nat
deriving DecidableEq, Repr

/-- One-decimal rendering of `(failures / len) * 100`, the `toFixed(1)` of
the source: round half away from zero at the first decimal, which for the
nonnegative rationals reachable here (denominator bounded by the window)
agrees with the double-precision `toFixed`. -/
def fmtPct (failures len : Nat) : String :=
  let n := (2000 * failures + len) / (2 * len)
  toString (n / 10) ++ "." ++ toString (n % 10)

/-- The `getMetrics` method: a pure projection of the breaker fields; the
rate string carries a trailing percent sign. -/
def CircuitBreaker.getMetrics (b : CircuitBreaker) : Metrics :=
  let failureRate :=
    if 0 < b.requestHistory.length then
      fmtPct (b.requestHistory.countP (fun r => !r)) b.requestHistory.length
    else "0.0"
  ⟨b.state, failureRate ++ "%", b.successCount, b.failureCount⟩

/-- Decide whether a wrapped call, raced against timeout `tmo`, fails. -/
def ServiceCall.failsUnder (c : ServiceCall) (tmo : Nat) : Bool :=
  decide (tmo < c.duration) ||
    match c.result with
    | .error _ => true
    | .ok _ => false

/-- A call that fails immediately, like the `fail` behaviour of the mocks. -/
def failSvcCall : ServiceCall := ⟨0, .error "Service Error - 500"⟩

/-- A call that succeeds immediately with the user payload. -/
def okUserCall : ServiceCall := ⟨0, .ok (.user mockUserData)⟩

/-- Wrapped call corresponding to a desired outcome, issued at clock 0. -/
def outcomeCall (o : Bool) : Nat × ServiceCall :=
  (0, match o with
      | true => okUserCall
      | false => failSvcCall)

/-- A breaker that has tripped open at clock 100, for concrete instantiation. -/
def openBreaker : CircuitBreaker :=
  { userProfileBreaker with state := .OPEN, lastFailureTime := some 100, failureCount := 5 }

/-- A breaker two successful trials into its half-open probation. -/
def halfOpenBreaker : CircuitBreaker :=
  { userProfileBreaker with
      state := .HALF_OPEN, trialCount := 2, failureCount := 7, lastFailureTime := some 0 }

section Lemmas

/-- Appending to a history at or under capacity keeps it at or under capacity. -/
theorem pushHistory_length_le {h : List Bool} {w : Nat} (o : Bool)
    (hle : h.length ≤ w) : (pushHistory h w o).length ≤ w := by
  unfold pushHistory
  split_ifs with hw
  · simp only [List.length_tail, List.length_append, List.length_singleton]
    omega
  · simp only [List.length_append, List.length_singleton] at hw ⊢
    omega

/-- Appending to a history strictly under capacity evicts nothing. -/
theorem pushHistory_eq_append {h : List Bool} {w : Nat} (o : Bool)
    (hlt : h.length < w) : pushHistory h w o = h ++ [o] := by
  unfold pushHistory
  have hnot : ¬ w < (h ++ [o]).length := by
    simp only [List.length_append, List.length_singleton]
    omega
  rw [if_neg hnot]

/-- The executable rate comparison agrees with the literal comparison of the
rational failure percentage against the integer threshold. -/
theorem rateGE_iff (h : List Bool) (thr : Nat) :
    rateGE h thr = true ↔ (thr : ℚ) ≤ failureRatePct h := by
  unfold rateGE failureRatePct
  by_cases hl : 0 < h.length
  · simp only [if_pos hl, decide_eq_true_eq]
    rw [div_mul_eq_mul_div, le_div_iff (by exact_mod_cast hl)]
    constructor
    · intro hle
      calc ((thr : ℚ) * h.length) = ((thr * h.length : Nat) : ℚ) := by push_cast; ring
        _ ≤ ((100 * h.countP (fun r => !r) : Nat) : ℚ) := by exact_mod_cast hle
        _ = (h.countP (fun r => !r) : ℚ) * 100 := by push_cast; ring
    · intro hle
      have : ((thr * h.length : Nat) : ℚ) ≤ ((100 * h.countP (fun r => !r) : Nat) : ℚ) := by
        calc ((thr * h.length : Nat) : ℚ) = (thr : ℚ) * h.length := by push_cast; ring
          _ ≤ (h.countP (fun r => !r) : ℚ) * 100 := hle
          _ = ((100 * h.countP (fun r => !r) : Nat) : ℚ) := by push_cast; ring
      exact_mod_cast this
  · simp only [if_neg hl, decide_eq_true_eq]
    constructor
    · intro h0
      simp [h0]
    · intro hle
      have hq : (thr : ℚ) ≤ 0 := hle
      have : thr ≤ 0 := by exact_mod_cast hq
      omega

/-- The `onSuccess` method changes no configuration field and keeps the
history bounded. -/
theorem onSuccess_fields (b : CircuitBreaker) :
    (b.onSuccess).timeout = b.timeout ∧
    (b.onSuccess).failureThreshold = b.failureThreshold ∧
    (b.onSuccess).failureRateThreshold = b.failureRateThreshold ∧
    (b.onSuccess).failureRateWindow = b.failureRateWindow ∧
    (b.onSuccess).openDuration = b.openDuration ∧
    (b.onSuccess).halfOpenTrials = b.halfOpenTrials ∧
    (b.onSuccess).requestHistory = pushHistory b.requestHistory b.failureRateWindow true ∧
    (b.onSuccess).name = b.name := by
  unfold CircuitBreaker.onSuccess
  rcases hs : b.state <;> simp [hs] <;> split_ifs <;> simp

/-- The `onFailure` method changes no configuration field and keeps the
history bounded. -/
theorem onFailure_fields (b : CircuitBreaker) (now : Nat) :
    (b.onFailure now).timeout = b.timeout ∧
    (b.onFailure now).failureThreshold = b.failureThreshold ∧
    (b.onFailure now).failureRateThreshold = b.failureRateThreshold ∧
    (b.onFailure now).failureRateWindow = b.failureRateWindow ∧
    (b.onFailure now).openDuration = b.openDuration ∧
    (b.onFailure now).halfOpenTrials = b.halfOpenTrials ∧
    (b.onFailure now).requestHistory = pushHistory b.requestHistory b.failureRateWindow false ∧
    (b.onFailure now).name = b.name := by
  unfold CircuitBreaker.onFailure
  rcases hs : b.state <;> simp [hs] <;> split_ifs <;> simp

/-- The race body always invokes the wrapped call. -/
theorem runCall_invoked (b : CircuitBreaker) (now : Nat) (c : ServiceCall) :
    (runCall b now c).callInvoked = true := by
  unfold runCall
  split_ifs
  · rfl
  · rcases hr : c.result <;> simp [hr]

/-- The race body never produces an open-circuit rejection. -/
theorem runCall_not_circuitOpen (b : CircuitBreaker) (now : Nat) (c : ServiceCall) (s : String) :
    (runCall b now c).outcome ≠ .error (.circuitOpen s) := by
  unfold runCall
  split_ifs
  · simp
  · rcases hr : c.result <;> simp [hr]

/-- Breaker produced by the race body: `onFailure` exactly when the call,
raced against the timeout, fails, and `onSuccess` otherwise. -/
theorem runCall_breaker (b : CircuitBreaker) (now : Nat) (c : ServiceCall) :
    (runCall b now c).breaker =
      if c.failsUnder b.timeout = true then b.onFailure now else b.onSuccess := by
  unfold runCall ServiceCall.failsUnder
  by_cases ht : b.timeout < c.duration
  · simp [ht]
  · rcases hr : c.result <;> simp [ht, hr]

/-- A `CLOSED` breaker proceeds straight to the race body. -/
theorem execute_closed {b : CircuitBreaker} (now : Nat) (c : ServiceCall)
    (hs : b.state = .CLOSED) : b.execute now c = runCall b now c := by
  unfold CircuitBreaker.execute
  rw [hs]

/-- A `HALF_OPEN` breaker proceeds straight to the race body. -/
theorem execute_halfOpen {b : CircuitBreaker} (now : Nat) (c : ServiceCall)
    (hs : b.state = .HALF_OPEN) : b.execute now c = runCall b now c := by
  unfold CircuitBreaker.execute
  rw [hs]

/-- An `OPEN` breaker within the cooldown rejects, untouched. -/
theorem execute_open_reject {b : CircuitBreaker} (now : Nat) (c : ServiceCall)
    (hs : b.state = .OPEN) (hcool : now - b.lastFailureTime.getD 0 ≤ b.openDuration) :
    b.execute now c = ⟨b, false, .error (.circuitOpen b.name)⟩ := by
  unfold CircuitBreaker.execute
  rw [hs]
  simp only [if_neg (not_lt.mpr hcool)]

/-- An `OPEN` breaker past the cooldown moves to `HALF_OPEN` with the trial
counter reset, and attempts the call. -/
theorem execute_open_transition {b : CircuitBreaker} (now : Nat) (c : ServiceCall)
    (hs : b.state = .OPEN) (hcool : b.openDuration < now - b.lastFailureTime.getD 0) :
    b.execute now c = runCall { b with state := .HALF_OPEN, trialCount := 0 } now c := by
  unfold CircuitBreaker.execute
  rw [hs]
  simp only [if_pos hcool]

/-- Executing an appended sequence executes the two parts in order. -/
theorem executeSeq_append (b : CircuitBreaker) (l1 l2 : List (Nat × ServiceCall)) :
    b.executeSeq (l1 ++ l2) = (b.executeSeq l1).executeSeq l2 := by
  induction l1 generalizing b with
  | nil => rfl
  | cons p rest ih =>
      rcases p with ⟨now, c⟩
      simp [CircuitBreaker.executeSeq, ih]

/-- An `OPEN` breaker absorbs any sequence of calls all made within the
cooldown of its recorded failure time. -/
theorem executeSeq_open_absorb (l : List (Nat × ServiceCall)) (b : CircuitBreaker)
    (hs : b.state = .OPEN)
    (hcool : ∀ p ∈ l, p.1 - b.lastFailureTime.getD 0 ≤ b.openDuration) :
    b.executeSeq l = b := by
  induction l with
  | nil => rfl
  | cons p rest ih =>
      rcases p with ⟨now, c⟩
      have h1 : now - b.lastFailureTime.getD 0 ≤ b.openDuration := hcool (now, c) (by simp)
      simp only [CircuitBreaker.executeSeq, execute_open_reject now c hs h1]
      exact ih (fun q hq => hcool q (by simp [hq]))

/-- Shape of `onSuccess` from `CLOSED`: stay `CLOSED`, zero the consecutive
failures, bump the success counter, record the outcome. -/
theorem onSuccess_closed {b : CircuitBreaker} (hs : b.state = .CLOSED) :
    b.onSuccess = { b with
      failureCount := 0, successCount := b.successCount + 1,
      requestHistory := pushHistory b.requestHistory b.failureRateWindow true } := by
  unfold CircuitBreaker.onSuccess
  simp [hs]

/-- Shape of `onSuccess` from `HALF_OPEN`: the trial counter is bumped, and
the breaker closes (zeroing `failureCount` but not `trialCount`) exactly
when the bumped counter reaches the requirement. -/
theorem onSuccess_halfOpen {b : CircuitBreaker} (hs : b.state = .HALF_OPEN) :
    b.onSuccess =
      (if b.halfOpenTrials ≤ b.trialCount + 1 then
        { b with
          state := .CLOSED, failureCount := 0, trialCount := b.trialCount + 1,
          successCount := b.successCount + 1,
          requestHistory := pushHistory b.requestHistory b.failureRateWindow true }
      else
        { b with
          trialCount := b.trialCount + 1, successCount := b.successCount + 1,
          requestHistory := pushHistory b.requestHistory b.failureRateWindow true }) := by
  unfold CircuitBreaker.onSuccess
  simp [hs]

/-- Shape of `onFailure` from `HALF_OPEN`: reopen at once and reset the
trial counter. -/
theorem onFailure_halfOpen {b : CircuitBreaker} (now : Nat) (hs : b.state = .HALF_OPEN) :
    b.onFailure now = { b with
      state := .OPEN, trialCount := 0, failureCount := b.failureCount + 1,
      lastFailureTime := some now,
      requestHistory := pushHistory b.requestHistory b.failureRateWindow false } := by
  unfold CircuitBreaker.onFailure
  simp [hs]

/-- Shape of `onFailure` from `CLOSED`: record the failure, then trip to
`OPEN` exactly when the consecutive threshold or the rate-over-full-window
condition holds (the two source branches produce the same record). -/
theorem onFailure_closed {b : CircuitBreaker} (now : Nat) (hs : b.state = .CLOSED) :
    b.onFailure now =
      (if b.failureThreshold ≤ b.failureCount + 1 ∨
          (rateGE (pushHistory b.requestHistory b.failureRateWindow false)
              b.failureRateThreshold = true ∧
            b.failureRateWindow ≤ (pushHistory b.requestHistory b.failureRateWindow false).length)
      then
        { b with
          state := .OPEN, failureCount := b.failureCount + 1,
          lastFailureTime := some now,
          requestHistory := pushHistory b.requestHistory b.failureRateWindow false }
      else
        { b with
          failureCount := b.failureCount + 1, lastFailureTime := some now,
          requestHistory := pushHistory b.requestHistory b.failureRateWindow false }) := by
  unfold CircuitBreaker.onFailure
  simp only [hs]
  by_cases h1 : b.failureThreshold ≤ b.failureCount + 1 <;>
    by_cases h2 : rateGE (pushHistory b.requestHistory b.failureRateWindow false)
        b.failureRateThreshold = true ∧
      b.failureRateWindow ≤ (pushHistory b.requestHistory b.failureRateWindow false).length <;>
    simp [h1, h2]

end Lemmas

/-- C9: when `execute` is invoked on an `OPEN` breaker still within the
cooldown, it fails fast with the open-circuit error, does not invoke the
wrapped call, and returns the breaker completely unchanged: no history
entry and no counter or timestamp update. -/
theorem C9_open_reject_is_pure (b : CircuitBreaker) (now : Nat) (c : ServiceCall)
    (hs : b.state = .OPEN) (hcool : now - b.lastFailureTime.getD 0 ≤ b.openDuration) :
    b.execute now c = ⟨b, false, .error (.circuitOpen b.name)⟩ :=
  execute_open_reject now c hs hcool

/-- Witness for C9 at a concrete open breaker and call. -/
theorem C9_open_reject_is_pure_witness :
    openBreaker.execute 150 failSvcCall =
      ⟨openBreaker, false, .error (.circuitOpen openBreaker.name)⟩ :=
  C9_open_reject_is_pure openBreaker 150 failSvcCall rfl (by decide)

/-- C2: for an `OPEN` breaker, if the elapsed time since the last failure is
at most the cooldown, `execute` fails with the open-circuit error without
invoking the call; if the cooldown has elapsed, `execute` becomes the race
body on the breaker moved to `HALF_OPEN` with `trialCount` reset to 0, the
wrapped call is invoked, and the outcome is never an open-circuit
rejection. -/
theorem C2_open_gate (b : CircuitBreaker) (now : Nat) (c : ServiceCall)
    (hs : b.state = .OPEN) :
    (now - b.lastFailureTime.getD 0 ≤ b.openDuration →
      b.execute now c = ⟨b, false, .error (.circuitOpen b.name)⟩) ∧
    (b.openDuration < now - b.lastFailureTime.getD 0 →
      b.execute now c = runCall { b with state := .HALF_OPEN, trialCount := 0 } now c ∧
      (b.execute now c).callInvoked = true ∧
      ∀ s, (b.execute now c).outcome ≠ .error (.circuitOpen s)) := by
  refine ⟨fun hcool => execute_open_reject now c hs hcool, fun hpast => ?_⟩
  have he := execute_open_transition now c hs hpast
  refine ⟨he, ?_, ?_⟩
  · rw [he]; exact runCall_invoked _ now c
  · intro s; rw [he]; exact runCall_not_circuitOpen _ now c s

/-- Witness for C2: both branches of the gate at a concrete open breaker. -/
theorem C2_open_gate_witness :
    (openBreaker.execute 150 okUserCall =
      ⟨openBreaker, false, .error (.circuitOpen openBreaker.name)⟩) ∧
    (openBreaker.execute 40000 okUserCall =
        runCall { openBreaker with state := .HALF_OPEN, trialCount := 0 } 40000 okUserCall ∧
      (openBreaker.execute 40000 okUserCall).callInvoked = true ∧
      ∀ s, (openBreaker.execute 40000 okUserCall).outcome ≠ .error (.circuitOpen s)) :=
  ⟨(C2_open_gate openBreaker 150 okUserCall rfl).1 (by decide),
   (C2_open_gate openBreaker 40000 okUserCall rfl).2 (by decide)⟩

/-- Counterexample to C4: a successful `execute` that moves a breaker from
`HALF_OPEN` to `CLOSED` leaves `trialCount` at the trials requirement, not
at 0 (the source increments it and never resets it on this transition). -/
theorem C4_counterexample :
    halfOpenBreaker.state = .HALF_OPEN ∧
    (halfOpenBreaker.execute 0 okUserCall).breaker.state = .CLOSED ∧
    (halfOpenBreaker.execute 0 okUserCall).breaker.trialCount ≠ 0 := by
  decide

/-- C4 as amended: a successful `execute` that moves the state from
`HALF_OPEN` to `CLOSED` zeroes `consecutiveFailures`, while
`trialsCompleted` is left at the incremented value that met the threshold
(it is re-zeroed only on the next `OPEN` to `HALF_OPEN` transition or by a
failed trial). -/
theorem C4_amended_close_zeroes_failures_only (b : CircuitBreaker) (now : Nat)
    (c : ServiceCall) (hs : b.state = .HALF_OPEN) (hok : c.failsUnder b.timeout = false)
    (hclosed : (b.execute now c).breaker.state = .CLOSED) :
    (b.execute now c).breaker.failureCount = 0 ∧
    (b.execute now c).breaker.trialCount = b.trialCount + 1 := by
  have he : (b.execute now c).breaker = b.onSuccess := by
    rw [execute_halfOpen now c hs, runCall_breaker, hok]
    simp
  rw [he] at hclosed ⊢
  rw [onSuccess_halfOpen hs] at hclosed ⊢
  split_ifs at hclosed ⊢ with h
  · simp
  · simp [hs] at hclosed

/-- Witness for the amended C4 at a concrete half-open breaker. -/
theorem C4_amended_close_zeroes_failures_only_witness :
    (halfOpenBreaker.execute 0 okUserCall).breaker.failureCount = 0 ∧
    (halfOpenBreaker.execute 0 okUserCall).breaker.trialCount =
      halfOpenBreaker.trialCount + 1 :=
  C4_amended_close_zeroes_failures_only halfOpenBreaker 0 okUserCall rfl (by decide) (by decide)

/-- Breaker obtained from the fresh user-profile breaker by two failing
calls, giving a nonempty history. -/
def twoFailBreaker : CircuitBreaker :=
  userProfileBreaker.executeSeq [(0, failSvcCall), (0, failSvcCall)]

/-- Counterexample to C8: with an empty history the snapshot rate string is
"0.0%" (the source appends a percent sign), not "0.0" as claimed. -/
theorem C8_counterexample :
    userProfileBreaker.requestHistory = [] ∧
    userProfileBreaker.getMetrics.failureRate = "0.0%" ∧
    userProfileBreaker.getMetrics.failureRate ≠ "0.0" := by
  decide

/-- C8 as amended: the snapshot is a pure projection returning exactly the
four fields, where the rate string is the failure percentage of the history
formatted to one decimal with a trailing percent sign, and is "0.0%" when
the history is empty (snapshot mutation freedom holds by construction: the
breaker is an input the projection never rebuilds). -/
theorem C8_amended_metrics (b : CircuitBreaker) :
    b.getMetrics.state = b.state ∧
    b.getMetrics.successfulCalls = b.successCount ∧
    b.getMetrics.failedCalls = b.failureCount ∧
    (b.requestHistory = [] → b.getMetrics.failureRate = "0.0%") ∧
    (b.requestHistory ≠ [] →
      b.getMetrics.failureRate =
        fmtPct (b.requestHistory.countP (fun r => !r)) b.requestHistory.length ++ "%") := by
  unfold CircuitBreaker.getMetrics
  refine ⟨rfl, rfl, rfl, ?_, ?_⟩
  · intro h
    rw [h]
    rfl
  · intro h
    have hlen : 0 < b.requestHistory.length := List.length_pos.mpr h
    simp [hlen]

/-- Witness for the amended C8 at an empty and a nonempty history. -/
theorem C8_amended_metrics_witness :
    userProfileBreaker.getMetrics.failureRate = "0.0%" ∧
    twoFailBreaker.getMetrics.failureRate =
      fmtPct (twoFailBreaker.requestHistory.countP (fun r => !r))
        twoFailBreaker.requestHistory.length ++ "%" :=
  ⟨(C8_amended_metrics userProfileBreaker).2.2.2.1 rfl,
   (C8_amended_metrics twoFailBreaker).2.2.2.2 (by decide)⟩

/-- The race body keeps the history within the window and the window
unchanged. -/
theorem runCall_history_bound (b : CircuitBreaker) (now : Nat) (c : ServiceCall)
    (hle : b.requestHistory.length ≤ b.failureRateWindow) :
    (runCall b now c).breaker.requestHistory.length ≤
      (runCall b now c).breaker.failureRateWindow := by
  rw [runCall_breaker]
  split_ifs
  · obtain ⟨-, -, -, hw, -, -, hh, -⟩ := onFailure_fields b now
    rw [hw, hh]
    exact pushHistory_length_le false hle
  · obtain ⟨-, -, -, hw, -, -, hh, -⟩ := onSuccess_fields b
    rw [hw, hh]
    exact pushHistory_length_le true hle

/-- One `execute` keeps the history within the window. -/
theorem execute_history_bound (b : CircuitBreaker) (now : Nat) (c : ServiceCall)
    (hle : b.requestHistory.length ≤ b.failureRateWindow) :
    (b.execute now c).breaker.requestHistory.length ≤
      (b.execute now c).breaker.failureRateWindow := by
  unfold CircuitBreaker.execute
  rcases hs : b.state
  · exact runCall_history_bound b now c hle
  · split_ifs with hcool
    · exact runCall_history_bound { b with state := .HALF_OPEN, trialCount := 0 } now c hle
    · exact hle
  · exact runCall_history_bound b now c hle

/-- C5: for every breaker whose history is within its window, any sequence
of `execute` calls, with any mix of successes, failures, timeouts and
open-circuit rejections, keeps the history length within
`failureRateWindow`; in particular this holds for ever from the freshly
constructed breaker, whose history is empty. -/
theorem C5_history_never_exceeds_window (b : CircuitBreaker)
    (calls : List (Nat × ServiceCall))
    (hle : b.requestHistory.length ≤ b.failureRateWindow) :
    (b.executeSeq calls).requestHistory.length ≤
      (b.executeSeq calls).failureRateWindow := by
  induction calls generalizing b with
  | nil => exact hle
  | cons p rest ih =>
      rcases p with ⟨now, c⟩
      exact ih ((b.execute now c).breaker) (execute_history_bound b now c hle)

/-- Witness for C5: a concrete mixed run from the fresh breaker. -/
theorem C5_history_never_exceeds_window_witness :
    (userProfileBreaker.executeSeq
        [(0, failSvcCall), (0, okUserCall), (0, failSvcCall), (0, ⟨3000, .ok (.user mockUserData)⟩)]
      ).requestHistory.length ≤
      (userProfileBreaker.executeSeq
        [(0, failSvcCall), (0, okUserCall), (0, failSvcCall), (0, ⟨3000, .ok (.user mockUserData)⟩)]
      ).failureRateWindow :=
  C5_history_never_exceeds_window userProfileBreaker _ (by decide)

/-- A run of successful calls from `CLOSED` with zero consecutive failures
stays `CLOSED` with zero consecutive failures. -/
theorem closed_success_run (calls : List (Nat × ServiceCall)) :
    ∀ b : CircuitBreaker, b.state = .CLOSED → b.failureCount = 0 →
    (∀ p ∈ calls, p.2.failsUnder b.timeout = false) →
    (b.executeSeq calls).state = .CLOSED ∧ (b.executeSeq calls).failureCount = 0 := by
  induction calls with
  | nil => exact fun b hs hf _ => ⟨hs, hf⟩
  | cons p rest ih =>
      rcases p with ⟨now, c⟩
      intro b hs hf hok
      have hc : c.failsUnder b.timeout = false := hok (now, c) (by simp)
      have hb1 : (b.execute now c).breaker = b.onSuccess := by
        rw [execute_closed now c hs, runCall_breaker, hc]
        simp
      have hrec := onSuccess_closed hs
      simp only [CircuitBreaker.executeSeq, hb1, hrec]
      exact ih _ (by simp [hs]) (by simp)
        (fun q hq => by simpa using hok q (by simp [hq]))

/-- A run of successful calls from `HALF_OPEN` long enough to meet the trial
requirement ends `CLOSED` with zero consecutive failures. -/
theorem halfOpen_success_run (calls : List (Nat × ServiceCall)) :
    ∀ b : CircuitBreaker, b.state = .HALF_OPEN →
    (∀ p ∈ calls, p.2.failsUnder b.timeout = false) →
    b.halfOpenTrials ≤ b.trialCount + calls.length →
    1 ≤ calls.length →
    (b.executeSeq calls).state = .CLOSED ∧ (b.executeSeq calls).failureCount = 0 := by
  induction calls with
  | nil => intro b _ _ _ hlen; exact absurd hlen (by simp)
  | cons p rest ih =>
      rcases p with ⟨now, c⟩
      intro b hs hok htrials _
      have hc : c.failsUnder b.timeout = false := hok (now, c) (by simp)
      have hb1 : (b.execute now c).breaker = b.onSuccess := by
        rw [execute_halfOpen now c hs, runCall_breaker, hc]
        simp
      simp only [CircuitBreaker.executeSeq, hb1, onSuccess_halfOpen hs]
      split_ifs with hreach
      · exact closed_success_run rest _ (by simp) (by simp)
          (fun q hq => by simpa using hok q (by simp [hq]))
      · have hlenr : 1 ≤ rest.length := by
          simp only [List.length_cons] at htrials
          omega
        refine ih _ (by simp [hs]) (fun q hq => by simpa using hok q (by simp [hq])) ?_ hlenr
        simp only [List.length_cons] at htrials
        simp
        omega

/-- The race body preserves the half-open trial bound. -/
theorem runCall_halfOpen_bound (b : CircuitBreaker) (now : Nat) (c : ServiceCall)
    (hs : b.state = .HALF_OPEN) :
    (runCall b now c).breaker.state = .HALF_OPEN →
    (runCall b now c).breaker.trialCount < (runCall b now c).breaker.halfOpenTrials := by
  rw [runCall_breaker]
  split_ifs with hf
  · rw [onFailure_halfOpen now hs]
    intro h
    simp at h
  · rw [onSuccess_halfOpen hs]
    split_ifs with h2
    · intro h
      simp at h
    · intro _
      simp
      omega

/-- The race body never moves a `CLOSED` breaker to `HALF_OPEN`. -/
theorem runCall_closed_not_halfOpen (b : CircuitBreaker) (now : Nat) (c : ServiceCall)
    (hs : b.state = .CLOSED) :
    (runCall b now c).breaker.state ≠ .HALF_OPEN := by
  rw [runCall_breaker]
  split_ifs with hf
  · rw [onFailure_closed now hs]
    split_ifs <;> simp [hs]
  · rw [onSuccess_closed hs]
    simp [hs]

/-- C3: while `HALF_OPEN` with `halfOpenTrialsRequired = N`, (i) any run of
`N` consecutive successful `execute` calls ends with the breaker `CLOSED`
and `consecutiveFailures = 0`; (ii) any single failing `execute` moves the
breaker to `OPEN` with `trialsCompleted` reset to 0; (iii) after any
`execute`, whenever the state is `HALF_OPEN` the trial count is strictly
below the requirement, and a freshly constructed breaker starts `CLOSED`,
so the bound holds at every reachable state. -/
theorem C3_halfOpen_probation :
    (∀ (b : CircuitBreaker) (calls : List (Nat × ServiceCall)),
      b.state = .HALF_OPEN →
      (∀ p ∈ calls, p.2.failsUnder b.timeout = false) →
      calls.length = b.halfOpenTrials →
      1 ≤ b.halfOpenTrials →
      (b.executeSeq calls).state = .CLOSED ∧ (b.executeSeq calls).failureCount = 0) ∧
    (∀ (b : CircuitBreaker) (now : Nat) (c : ServiceCall),
      b.state = .HALF_OPEN → c.failsUnder b.timeout = true →
      (b.execute now c).breaker.state = .OPEN ∧ (b.execute now c).breaker.trialCount = 0) ∧
    (∀ (b : CircuitBreaker) (now : Nat) (c : ServiceCall),
      (b.execute now c).breaker.state = .HALF_OPEN →
      (b.execute now c).breaker.trialCount < (b.execute now c).breaker.halfOpenTrials) ∧
    (∀ (name : String) (o : BreakerOptions), (CircuitBreaker.make name o).state = .CLOSED) := by
  refine ⟨?_, ?_, ?_, fun _ _ => rfl⟩
  · intro b calls hs hok hlen hpos
    exact halfOpen_success_run calls b hs hok (by omega) (by omega)
  · intro b now c hs hf
    have hb1 : (b.execute now c).breaker = b.onFailure now := by
      rw [execute_halfOpen now c hs, runCall_breaker, hf]
      simp
    rw [hb1, onFailure_halfOpen now hs]
    simp
  · intro b now c
    rcases hs : b.state
    · rw [execute_closed now c hs]
      intro hh
      exact absurd hh (runCall_closed_not_halfOpen b now c hs)
    · by_cases hcool : b.openDuration < now - b.lastFailureTime.getD 0
      · rw [execute_open_transition now c hs hcool]
        exact runCall_halfOpen_bound _ now c rfl
      · rw [execute_open_reject now c hs (not_lt.mp hcool)]
        intro hh
        simp only at hh
        rw [hs] at hh
        simp at hh
    · rw [execute_halfOpen now c hs]
      exact runCall_halfOpen_bound b now c hs

/-- A breaker that has just entered its half-open probation. -/
def freshHalfOpenBreaker : CircuitBreaker :=
  { userProfileBreaker with state := .HALF_OPEN, trialCount := 0, lastFailureTime := some 0 }

/-- Witness for C3: the three breaker-level parts at concrete inputs. -/
theorem C3_halfOpen_probation_witness :
    ((freshHalfOpenBreaker.executeSeq
        [(0, okUserCall), (0, okUserCall), (0, okUserCall)]).state = .CLOSED ∧
      (freshHalfOpenBreaker.executeSeq
        [(0, okUserCall), (0, okUserCall), (0, okUserCall)]).failureCount = 0) ∧
    ((halfOpenBreaker.execute 0 failSvcCall).breaker.state = .OPEN ∧
      (halfOpenBreaker.execute 0 failSvcCall).breaker.trialCount = 0) ∧
    ((freshHalfOpenBreaker.execute 0 okUserCall).breaker.trialCount <
      (freshHalfOpenBreaker.execute 0 okUserCall).breaker.halfOpenTrials) :=
  ⟨C3_halfOpen_probation.1 freshHalfOpenBreaker _ rfl (by decide) (by decide) (by decide),
   C3_halfOpen_probation.2.1 halfOpenBreaker 0 failSvcCall rfl (by decide),
   C3_halfOpen_probation.2.2.1 freshHalfOpenBreaker 0 okUserCall (by decide)⟩

/-- Counting outcomes that are not successes is counting `false` entries. -/
theorem countP_not_eq_count_false (h : List Bool) :
    h.countP (fun r => !r) = h.count false := by
  induction h with
  | nil => rfl
  | cons x t ih => cases x <;> simp [List.countP_cons, List.count_cons, ih]

/-- Running `k` copies of a failing call from `CLOSED` either trips the
breaker open (with the failure instant recorded at the shared clock), or
leaves it `CLOSED` with the consecutive-failure counter advanced by `k` and,
when `k` is positive, still below the threshold. -/
theorem consec_failures_run (k : Nat) :
    ∀ (b : CircuitBreaker) (now : Nat) (c : ServiceCall),
      c.failsUnder b.timeout = true → b.state = .CLOSED →
      ((b.executeSeq (List.replicate k (now, c))).state = .OPEN ∧
        (b.executeSeq (List.replicate k (now, c))).lastFailureTime = some now) ∨
      ((b.executeSeq (List.replicate k (now, c))).state = .CLOSED ∧
        (b.executeSeq (List.replicate k (now, c))).failureCount = b.failureCount + k ∧
        (b.executeSeq (List.replicate k (now, c))).failureThreshold = b.failureThreshold ∧
        ((b.executeSeq (List.replicate k (now, c))).failureCount <
            (b.executeSeq (List.replicate k (now, c))).failureThreshold ∨ k = 0)) := by
  induction k with
  | zero =>
      intro b now c _ hs
      exact Or.inr ⟨hs, rfl, rfl, Or.inr rfl⟩
  | succ k ih =>
      intro b now c hf hs
      have hb1 : (b.execute now c).breaker = b.onFailure now := by
        rw [execute_closed now c hs, runCall_breaker, hf]
        simp
      rw [onFailure_closed now hs] at hb1
      simp only [List.replicate_succ, CircuitBreaker.executeSeq]
      split_ifs at hb1 with htrip
      · have habs : ((b.execute now c).breaker).executeSeq (List.replicate k (now, c)) =
            (b.execute now c).breaker := by
          apply executeSeq_open_absorb
          · rw [hb1]
          · intro p hp
            rw [List.eq_of_mem_replicate hp, hb1]
            simp
        rw [habs, hb1]
        exact Or.inl ⟨rfl, rfl⟩
      · have hrec := ih ((b.execute now c).breaker) now c (by rw [hb1]; exact hf)
          (by rw [hb1]; exact hs)
        rcases hrec with hopen | ⟨hst, hfc, hthr, hbnd⟩
        · exact Or.inl hopen
        · refine Or.inr ⟨hst, ?_, ?_, ?_⟩
          · rw [hfc, hb1]
            simp
            omega
          · rw [hthr, hb1]
          · rcases hbnd with hlt | hk0
            · exact Or.inl hlt
            · subst hk0
              left
              rw [hfc, hthr, hb1]
              simp only [not_or, not_le] at htrip
              simp
              omega

/-- Running a list of immediate outcomes from `CLOSED` with enough window
room either trips the breaker open, or appends exactly those outcomes to
the history while staying `CLOSED` (configuration unchanged). -/
theorem closed_window_run (l : List Bool) :
    ∀ b : CircuitBreaker, b.state = .CLOSED →
      b.requestHistory.length + l.length ≤ b.failureRateWindow →
      (b.executeSeq (l.map outcomeCall)).state = .OPEN ∨
      ((b.executeSeq (l.map outcomeCall)).state = .CLOSED ∧
        (b.executeSeq (l.map outcomeCall)).requestHistory = b.requestHistory ++ l ∧
        (b.executeSeq (l.map outcomeCall)).failureRateWindow = b.failureRateWindow ∧
        (b.executeSeq (l.map outcomeCall)).failureRateThreshold = b.failureRateThreshold) := by
  induction l with
  | nil =>
      intro b hs _
      exact Or.inr ⟨hs, by simp [CircuitBreaker.executeSeq], rfl, rfl⟩
  | cons o rest ih =>
      intro b hs hroom
      simp only [List.length_cons] at hroom
      have hpush : ∀ x : Bool,
          pushHistory b.requestHistory b.failureRateWindow x = b.requestHistory ++ [x] := by
        intro x
        apply pushHistory_eq_append
        omega
      cases o with
      | true =>
          have hb1 : (b.execute 0 okUserCall).breaker = b.onSuccess := by
            rw [execute_closed 0 okUserCall hs, runCall_breaker]
            simp [ServiceCall.failsUnder, okUserCall]
          simp only [List.map_cons, CircuitBreaker.executeSeq, outcomeCall, if_pos]
          rw [hb1, onSuccess_closed hs, hpush true]
          have := ih { b with
            failureCount := 0, successCount := b.successCount + 1,
            requestHistory := b.requestHistory ++ [true] } (by simp [hs]) (by simp; omega)
          simpa [List.append_assoc] using this
      | false =>
          have hb1 : (b.execute 0 failSvcCall).breaker = b.onFailure 0 := by
            rw [execute_closed 0 failSvcCall hs, runCall_breaker]
            simp [ServiceCall.failsUnder, failSvcCall]
          simp only [List.map_cons, CircuitBreaker.executeSeq, outcomeCall]
          rw [hb1, onFailure_closed 0 hs, hpush false]
          split_ifs with htrip
          · left
            have habs : CircuitBreaker.executeSeq { b with
                state := .OPEN, failureCount := b.failureCount + 1,
                lastFailureTime := some 0,
                requestHistory := b.requestHistory ++ [false] }
                (rest.map outcomeCall) = { b with
                state := .OPEN, failureCount := b.failureCount + 1,
                lastFailureTime := some 0,
                requestHistory := b.requestHistory ++ [false] } := by
              apply executeSeq_open_absorb _ _ rfl
              intro p hp
              rcases List.mem_map.mp hp with ⟨x, -, hx⟩
              have hp1 : p.1 = 0 := by
                rw [← hx]
                unfold outcomeCall
                rfl
              simp [hp1]
            rw [habs]
          · have := ih { b with
              failureCount := b.failureCount + 1, lastFailureTime := some 0,
              requestHistory := b.requestHistory ++ [false] } (by simp [hs]) (by simp; omega)
            simpa [List.append_assoc] using this

/-- C1: (i) a failing `execute` on a `CLOSED` breaker trips it to `OPEN`
exactly when, after recording the failure, the consecutive-failure count
reaches the threshold, or the history fills the window and its failure
percentage reaches the rate threshold — either alone suffices; (ii) with
`failureThreshold = 5`, five consecutive failing calls from `CLOSED` leave
the breaker `OPEN` whatever the initial history; (iii) from the fresh
repo breaker (window 10, rate threshold 50), any ten recorded outcomes
containing at least five failures and ending in a failure leave the breaker
`OPEN`. -/
theorem C1_closed_trip_condition :
    (∀ (b : CircuitBreaker) (now : Nat) (c : ServiceCall),
      b.state = .CLOSED → c.failsUnder b.timeout = true →
      ((b.execute now c).breaker.state = .OPEN ↔
        b.failureThreshold ≤ b.failureCount + 1 ∨
        (b.failureRateWindow ≤ (pushHistory b.requestHistory b.failureRateWindow false).length ∧
          (b.failureRateThreshold : ℚ) ≤
            failureRatePct (pushHistory b.requestHistory b.failureRateWindow false)))) ∧
    (∀ (b : CircuitBreaker) (now : Nat) (c : ServiceCall),
      b.state = .CLOSED → b.failureThreshold = 5 → c.failsUnder b.timeout = true →
      (b.executeSeq (List.replicate 5 (now, c))).state = .OPEN) ∧
    (∀ outcomes : List Bool,
      outcomes.length = 10 → 5 ≤ outcomes.count false → outcomes.getLast? = some false →
      (userProfileBreaker.executeSeq (outcomes.map outcomeCall)).state = .OPEN) := by
  refine ⟨?_, ?_, ?_⟩
  · intro b now c hs hf
    have hb1 : (b.execute now c).breaker = b.onFailure now := by
      rw [execute_closed now c hs, runCall_breaker, hf]
      simp
    rw [hb1, onFailure_closed now hs]
    have hbridge := rateGE_iff (pushHistory b.requestHistory b.failureRateWindow false)
      b.failureRateThreshold
    split_ifs with htrip
    · refine ⟨fun _ => ?_, fun _ => rfl⟩
      rcases htrip with h1 | ⟨h2a, h2b⟩
      · exact Or.inl h1
      · exact Or.inr ⟨h2b, hbridge.mp h2a⟩
    · refine ⟨fun hOpen => ?_, fun hrhs => ?_⟩
      · simp only at hOpen
        rw [hs] at hOpen
        simp at hOpen
      · exfalso
        apply htrip
        rcases hrhs with h1 | ⟨hw, hq⟩
        · exact Or.inl h1
        · exact Or.inr ⟨hbridge.mpr hq, hw⟩
  · intro b now c hs hthr hf
    rcases consec_failures_run 5 b now c hf hs with ⟨hopen, -⟩ | ⟨-, hfc, hthr5, hbnd⟩
    · exact hopen
    · exfalso
      rcases hbnd with hlt | h50
      · rw [hfc, hthr5, hthr] at hlt
        omega
      · exact absurd h50 (by decide)
  · intro outcomes hlen hcnt hlast
    have hdecomp : outcomes.dropLast ++ [false] = outcomes :=
      List.dropLast_append_getLast? false (by simp [Option.mem_def, hlast])
    have hdl : outcomes.dropLast.length = 9 := by
      rw [List.length_dropLast, hlen]
    have hroom : userProfileBreaker.requestHistory.length + outcomes.dropLast.length ≤
        userProfileBreaker.failureRateWindow := by
      rw [hdl]
      decide
    have hsplit : outcomes.map outcomeCall =
        outcomes.dropLast.map outcomeCall ++ [outcomeCall false] := by
      conv_lhs => rw [← hdecomp]
      simp
    rw [hsplit, executeSeq_append]
    rcases closed_window_run outcomes.dropLast userProfileBreaker rfl hroom with
      hopen | ⟨hst, hhist, hwin, hrthr⟩
    · have habs : (userProfileBreaker.executeSeq
          (outcomes.dropLast.map outcomeCall)).executeSeq [outcomeCall false] =
          userProfileBreaker.executeSeq (outcomes.dropLast.map outcomeCall) := by
        apply executeSeq_open_absorb _ _ hopen
        intro p hp
        simp only [List.mem_singleton] at hp
        rw [hp]
        simp [outcomeCall]
      rw [habs]
      exact hopen
    · set b9 := userProfileBreaker.executeSeq (outcomes.dropLast.map outcomeCall) with hb9
      have hh9 : b9.requestHistory = outcomes.dropLast := by
        rw [hhist]
        rfl
      have hwin9 : b9.failureRateWindow = 10 := by
        rw [hwin]
        decide
      have hthr9 : b9.failureRateThreshold = 50 := by
        rw [hrthr]
        decide
      have hpush9 : pushHistory b9.requestHistory b9.failureRateWindow false = outcomes := by
        rw [hh9, hwin9, pushHistory_eq_append false (by rw [hdl]; omega), hdecomp]
      have hb1 : (b9.execute 0 failSvcCall).breaker = b9.onFailure 0 := by
        rw [execute_closed 0 failSvcCall hst, runCall_breaker]
        simp [ServiceCall.failsUnder, failSvcCall]
      simp only [CircuitBreaker.executeSeq, outcomeCall]
      rw [hb1, onFailure_closed 0 hst]
      split_ifs with htrip
      · rfl
      · exfalso
        apply htrip
        right
        refine ⟨?_, ?_⟩
        · rw [hpush9, hthr9]
          unfold rateGE
          rw [if_pos (by rw [hlen]; omega)]
          apply decide_eq_true
          rw [hlen, countP_not_eq_count_false]
          omega
        · rw [hpush9, hwin9, hlen]

/-- Witness for C1: the three parts instantiated at the fresh repo breaker,
an immediately failing call, and an alternating ten-outcome run. -/
theorem C1_closed_trip_condition_witness :
    ((userProfileBreaker.execute 0 failSvcCall).breaker.state = .OPEN ↔
      userProfileBreaker.failureThreshold ≤ userProfileBreaker.failureCount + 1 ∨
      (userProfileBreaker.failureRateWindow ≤
          (pushHistory userProfileBreaker.requestHistory
            userProfileBreaker.failureRateWindow false).length ∧
        (userProfileBreaker.failureRateThreshold : ℚ) ≤
          failureRatePct (pushHistory userProfileBreaker.requestHistory
            userProfileBreaker.failureRateWindow false))) ∧
    (contentBreaker.executeSeq (List.replicate 5 (0, failSvcCall))).state = .OPEN ∧
    (userProfileBreaker.executeSeq
      ([true, false, true, false, true, false, true, false, true, false].map
        outcomeCall)).state = .OPEN :=
  ⟨C1_closed_trip_condition.1 userProfileBreaker 0 failSvcCall rfl (by decide),
   C1_closed_trip_condition.2.1 contentBreaker 0 failSvcCall rfl rfl (by decide),
   C1_closed_trip_condition.2.2 [true, false, true, false, true, false, true, false, true, false]
     (by decide) (by decide) (by decide)⟩


/-- Branch (a) of the handler: both breakers open after their calls. -/
theorem getRecommendations_both_open (bs : Breakers) (ss : ServiceStates)
    (userId : String) (now : Nat)
    (h1 : (bs.userProfile.execute now (serviceCall ss.userProfile .user)).breaker.state = .OPEN)
    (h2 : (bs.content.execute now (serviceCall ss.content .movies)).breaker.state = .OPEN) :
    (getRecommendations bs ss userId now).2 =
      ⟨200,
        some "Our recommendation service is temporarily degraded. Here are some trending movies.",
        none, none, some mockTrendingList,
        some "user-profile-service, content-service", none⟩ := by
  simp only [getRecommendations]
  rw [if_pos ⟨h1, h2⟩]
  rfl

/-- Branch (b) of the handler: only the profile breaker open. -/
theorem getRecommendations_profile_open (bs : Breakers) (ss : ServiceStates)
    (userId : String) (now : Nat)
    (h1 : (bs.userProfile.execute now (serviceCall ss.userProfile .user)).breaker.state = .OPEN)
    (h2 : (bs.content.execute now (serviceCall ss.content .movies)).breaker.state ≠ .OPEN) :
    (getRecommendations bs ss userId now).2 =
      ⟨200, none, some ⟨userId, ["Comedy", "Family"]⟩,
        some (obtainedRecs (bs.content.execute now (serviceCall ss.content .movies))),
        none, some "user-profile-service", none⟩ := by
  simp only [getRecommendations]
  rw [if_neg (fun hc => h2 hc.2), if_pos h1]

/-- Branch (c) of the handler: only the catalog breaker open. -/
theorem getRecommendations_catalog_open (bs : Breakers) (ss : ServiceStates)
    (userId : String) (now : Nat)
    (h1 : (bs.userProfile.execute now (serviceCall ss.userProfile .user)).breaker.state ≠ .OPEN)
    (h2 : (bs.content.execute now (serviceCall ss.content .movies)).breaker.state = .OPEN) :
    (getRecommendations bs ss userId now).2 =
      ⟨200, some "Using trending movies as fallback",
        some (obtainedPrefs (bs.userProfile.execute now (serviceCall ss.userProfile .user)) userId),
        none, some mockTrendingList, some "content-service", none⟩ := by
  simp only [getRecommendations]
  rw [if_neg (fun hc => h1 hc.1), if_neg h1, if_pos h2]
  rfl

/-- Branch (d) of the handler: neither breaker open after its call. -/
theorem getRecommendations_normal (bs : Breakers) (ss : ServiceStates)
    (userId : String) (now : Nat)
    (h1 : (bs.userProfile.execute now (serviceCall ss.userProfile .user)).breaker.state ≠ .OPEN)
    (h2 : (bs.content.execute now (serviceCall ss.content .movies)).breaker.state ≠ .OPEN) :
    (getRecommendations bs ss userId now).2 =
      ⟨200, none,
        some (obtainedPrefs (bs.userProfile.execute now (serviceCall ss.userProfile .user)) userId),
        some (obtainedRecs (bs.content.execute now (serviceCall ss.content .movies))),
        none, none, none⟩ := by
  simp only [getRecommendations]
  rw [if_neg (fun hc => h1 hc.1), if_neg h1, if_neg h2]


/-- A content-side breaker that has tripped open at clock 100. -/
def openContentBreaker : CircuitBreaker :=
  { contentBreaker with state := .OPEN, lastFailureTime := some 100, failureCount := 5 }

/-- C6: the composition branch of `getRecommendations` is selected solely
from the two breaker states observed after both calls settle, in priority
order: both open gives the trending body with the combined annotation; only
the profile breaker open gives default preferences plus the obtained
catalog result with the profile annotation; only the catalog breaker open
gives the obtained preferences plus trending with the catalog annotation;
otherwise the obtained preferences and catalog result with no annotation.
Each condition mentions only the post-call breaker states, never whether
this particular call failed. -/
theorem C6_branch_keyed_on_states (bs : Breakers) (ss : ServiceStates)
    (userId : String) (now : Nat) :
    ((bs.userProfile.execute now (serviceCall ss.userProfile .user)).breaker.state = .OPEN ∧
      (bs.content.execute now (serviceCall ss.content .movies)).breaker.state = .OPEN →
      (getRecommendations bs ss userId now).2 =
        ⟨200,
          some "Our recommendation service is temporarily degraded. Here are some trending movies.",
          none, none, some mockTrendingList,
          some "user-profile-service, content-service", none⟩) ∧
    ((bs.userProfile.execute now (serviceCall ss.userProfile .user)).breaker.state = .OPEN ∧
      (bs.content.execute now (serviceCall ss.content .movies)).breaker.state ≠ .OPEN →
      (getRecommendations bs ss userId now).2 =
        ⟨200, none, some ⟨userId, ["Comedy", "Family"]⟩,
          some (obtainedRecs (bs.content.execute now (serviceCall ss.content .movies))),
          none, some "user-profile-service", none⟩) ∧
    ((bs.userProfile.execute now (serviceCall ss.userProfile .user)).breaker.state ≠ .OPEN ∧
      (bs.content.execute now (serviceCall ss.content .movies)).breaker.state = .OPEN →
      (getRecommendations bs ss userId now).2 =
        ⟨200, some "Using trending movies as fallback",
          some (obtainedPrefs
            (bs.userProfile.execute now (serviceCall ss.userProfile .user)) userId),
          none, some mockTrendingList, some "content-service", none⟩) ∧
    ((bs.userProfile.execute now (serviceCall ss.userProfile .user)).breaker.state ≠ .OPEN ∧
      (bs.content.execute now (serviceCall ss.content .movies)).breaker.state ≠ .OPEN →
      (getRecommendations bs ss userId now).2 =
        ⟨200, none,
          some (obtainedPrefs
            (bs.userProfile.execute now (serviceCall ss.userProfile .user)) userId),
          some (obtainedRecs (bs.content.execute now (serviceCall ss.content .movies))),
          none, none, none⟩) :=
  ⟨fun h => getRecommendations_both_open bs ss userId now h.1 h.2,
   fun h => getRecommendations_profile_open bs ss userId now h.1 h.2,
   fun h => getRecommendations_catalog_open bs ss userId now h.1 h.2,
   fun h => getRecommendations_normal bs ss userId now h.1 h.2⟩

/-- Witness for C6: the four branches at concrete breaker pairs (both open,
profile open, catalog open, neither open), all within the cooldown. -/
theorem C6_branch_keyed_on_states_witness :
    ((getRecommendations ⟨openBreaker, openContentBreaker⟩ ⟨.normal, .normal⟩ "42" 150).2 =
      ⟨200,
        some "Our recommendation service is temporarily degraded. Here are some trending movies.",
        none, none, some mockTrendingList,
        some "user-profile-service, content-service", none⟩) ∧
    ((getRecommendations ⟨openBreaker, contentBreaker⟩ ⟨.normal, .normal⟩ "42" 150).2 =
      ⟨200, none, some ⟨"42", ["Comedy", "Family"]⟩,
        some (obtainedRecs (contentBreaker.execute 150 (serviceCall .normal .movies))),
        none, some "user-profile-service", none⟩) ∧
    ((getRecommendations ⟨userProfileBreaker, openContentBreaker⟩ ⟨.normal, .normal⟩ "42" 150).2 =
      ⟨200, some "Using trending movies as fallback",
        some (obtainedPrefs (userProfileBreaker.execute 150 (serviceCall .normal .user)) "42"),
        none, some mockTrendingList, some "content-service", none⟩) ∧
    ((getRecommendations ⟨userProfileBreaker, contentBreaker⟩ ⟨.normal, .normal⟩ "42" 150).2 =
      ⟨200, none,
        some (obtainedPrefs (userProfileBreaker.execute 150 (serviceCall .normal .user)) "42"),
        some (obtainedRecs (contentBreaker.execute 150 (serviceCall .normal .movies))),
        none, none, none⟩) :=
  ⟨(C6_branch_keyed_on_states ⟨openBreaker, openContentBreaker⟩ ⟨.normal, .normal⟩ "42" 150).1
      (by decide),
   (C6_branch_keyed_on_states ⟨openBreaker, contentBreaker⟩ ⟨.normal, .normal⟩ "42" 150).2.1
      (by decide),
   (C6_branch_keyed_on_states ⟨userProfileBreaker, openContentBreaker⟩
      ⟨.normal, .normal⟩ "42" 150).2.2.1 (by decide),
   (C6_branch_keyed_on_states ⟨userProfileBreaker, contentBreaker⟩
      ⟨.normal, .normal⟩ "42" 150).2.2.2 (by decide)⟩

/-- C7: for every pair of breakers, every injected dependency behaviour and
every user, the handler produces a 200 response with no error body, always
carrying a recommendation or trending list; dependency failures of any kind
are absorbed into fallback data and never fail the whole request. -/
theorem C7_always_returns_response (bs : Breakers) (ss : ServiceStates)
    (userId : String) (now : Nat) :
    (getRecommendations bs ss userId now).2.status = 200 ∧
    (getRecommendations bs ss userId now).2.errorMsg = none ∧
    ((getRecommendations bs ss userId now).2.recommendations ≠ none ∨
      (getRecommendations bs ss userId now).2.trending ≠ none) := by
  by_cases h1 :
      (bs.userProfile.execute now (serviceCall ss.userProfile .user)).breaker.state = .OPEN <;>
    by_cases h2 :
      (bs.content.execute now (serviceCall ss.content .movies)).breaker.state = .OPEN
  · rw [getRecommendations_both_open bs ss userId now h1 h2]
    simp
  · rw [getRecommendations_profile_open bs ss userId now h1 h2]
    simp
  · rw [getRecommendations_catalog_open bs ss userId now h1 h2]
    simp
  · rw [getRecommendations_normal bs ss userId now h1 h2]
    simp

/-- C10: when a protected call fails but its breaker is not `OPEN` after the
call (and the other breaker is not `OPEN` either), the response carries the
substituted fallback data (default preferences, or the empty recommendation
list) yet no `fallback_triggered_for` annotation: the per-call failure flag
is never consulted when the response is built. -/
theorem C10_fallback_without_flag (bs : Breakers) (ss : ServiceStates)
    (userId : String) (now : Nat)
    (h1 : (bs.userProfile.execute now (serviceCall ss.userProfile .user)).breaker.state ≠ .OPEN)
    (h2 : (bs.content.execute now (serviceCall ss.content .movies)).breaker.state ≠ .OPEN) :
    (∀ e, (bs.userProfile.execute now (serviceCall ss.userProfile .user)).outcome = .error e →
      (getRecommendations bs ss userId now).2.userPreferences =
        some ⟨userId, ["Comedy", "Family"]⟩ ∧
      (getRecommendations bs ss userId now).2.fallback_triggered_for = none) ∧
    (∀ e, (bs.content.execute now (serviceCall ss.content .movies)).outcome = .error e →
      (getRecommendations bs ss userId now).2.recommendations = some [] ∧
      (getRecommendations bs ss userId now).2.fallback_triggered_for = none) := by
  have hd := getRecommendations_normal bs ss userId now h1 h2
  constructor
  · intro e he
    rw [hd]
    refine ⟨?_, rfl⟩
    simp [obtainedPrefs, he]
  · intro e he
    rw [hd]
    refine ⟨?_, rfl⟩
    simp [obtainedRecs, he]

/-- Witness for C10: both dependencies injected to fail against fresh
breakers; each call fails yet both breakers stay `CLOSED`, and the response
carries both fallbacks with no annotation. -/
theorem C10_fallback_without_flag_witness :
    ((getRecommendations ⟨userProfileBreaker, contentBreaker⟩
        ⟨.fail, .fail⟩ "42" 0).2.userPreferences = some ⟨"42", ["Comedy", "Family"]⟩ ∧
      (getRecommendations ⟨userProfileBreaker, contentBreaker⟩
        ⟨.fail, .fail⟩ "42" 0).2.fallback_triggered_for = none) ∧
    ((getRecommendations ⟨userProfileBreaker, contentBreaker⟩
        ⟨.fail, .fail⟩ "42" 0).2.recommendations = some [] ∧
      (getRecommendations ⟨userProfileBreaker, contentBreaker⟩
        ⟨.fail, .fail⟩ "42" 0).2.fallback_triggered_for = none) :=
  ⟨(C10_fallback_without_flag ⟨userProfileBreaker, contentBreaker⟩ ⟨.fail, .fail⟩ "42" 0
      (by decide) (by decide)).1 (.downstream "Service Error - 500") (by decide),
   (C10_fallback_without_flag ⟨userProfileBreaker, contentBreaker⟩ ⟨.fail, .fail⟩ "42" 0
      (by decide) (by decide)).2 (.downstream "Service Error - 500") (by decide)⟩

end RecService
